import Mathlib

/-!
Shallow embedding of the SnellerInc/compbench benchmark driver
(src/main.go, which holds two revisions of the program: the igbench
subprocess driver, lines 1-338, and the in-process pipe driver,
lines 339-597).

Modelling conventions:
* bytes are natural numbers; Go float64 arithmetic on sizes and rates is
  modelled as exact rational arithmetic;
* wall-clock time is modelled by an abstract sequence of per-iteration
  durations, in nanoseconds, from which every time.Now() reading of a
  measurement loop is derived;
* the opaque iguana codec (enc.Compress / dec.DecompressTo) is a function
  parameter: comp for compression at a threshold, decomp for
  decompression, with none marking a codec error;
* Go while-loops over a byte slice are translated with a fuel argument;
  every top-level wrapper passes fuel = src.length, which is sufficient
  because each pass of the corresponding loop consumes at least one byte
  of src while consuming exactly one unit of fuel.
-/

/-- Window size constant, src/main.go:51: const iguanaWindowSize = 256 * 1024. -/
def iguanaWindowSize : Nat := 256 * 1024

/-- The three length bytes written per window by iguanaCompress
(src/main.go:70-72): byte(winsize and 0xff), byte((winsize shr 8) and 0xff),
byte((winsize shr 16) and 0xff). -/
def frameHeader (winsize : Nat) : List Nat :=
  [winsize % 256, winsize / 256 % 256, winsize / 65536 % 256]

/-- The 3-byte little-endian length read by iguanaDecompress
(src/main.go:80): int(src[0]) + int(src[1]) shl 8 + int(src[2]) shl 16. -/
def headerVal (src : List Nat) : Nat :=
  src.getD 0 0 + src.getD 1 0 * 256 + src.getD 2 0 * 65536

/-- Loop of iguanaCompress, src/main.go:53-75.  comp models enc.Compress at
the given threshold (the threshold only flows into comp, so its float64
nature is irrelevant; it is carried as an exact rational).  Each pass takes
a window of at most iguanaWindowSize bytes off the front of src, appends a
3-byte length header and the compressed window to the output, and repeats
while src is non-empty. -/
def iguanaCompressGo (comp : ℚ → List Nat → List Nat) (threshold : ℚ) :
    Nat → List Nat → List Nat
  | 0, _ => []
  | _, [] => []
  | fuel + 1, b :: tl =>
    let src := b :: tl
    let mem := src.take iguanaWindowSize
    let rest := src.drop iguanaWindowSize
    let cw := comp threshold mem
    frameHeader cw.length ++ cw ++ iguanaCompressGo comp threshold fuel rest

/-- iguanaCompress, src/main.go:53-75 (the second revision, src/main.go:383-409,
differs only in deriving the threshold from a boolean). -/
def iguanaCompress (comp : ℚ → List Nat → List Nat) (threshold : ℚ)
    (src : List Nat) : List Nat :=
  iguanaCompressGo comp threshold src.length src

/-- The window decomposition performed by the compress loop: successive chunks
of at most iguanaWindowSize bytes off the front of src. -/
def windowsGo : Nat → List Nat → List (List Nat)
  | 0, _ => []
  | _, [] => []
  | fuel + 1, b :: tl =>
    let src := b :: tl
    src.take iguanaWindowSize :: windowsGo fuel (src.drop iguanaWindowSize)

/-- The windows of a payload, in order. -/
def windows (src : List Nat) : List (List Nat) := windowsGo src.length src

/-- A stream of length-prefixed frames: for each compressed window cw, its
3-byte length header immediately followed by cw. -/
def frameStream (ws : List (List Nat)) : List Nat :=
  (ws.map (fun cw => frameHeader cw.length ++ cw)).flatten

/-- Failure modes of the decode loop: the panic("invalid frame") on a
declared length exceeding the remaining bytes, or a codec error from
dec.DecompressTo. -/
inductive DecompError where
  | invalidFrame
  | codec
deriving DecidableEq

/-- Decidable equality of decode results, used to evaluate the decoder on
concrete inputs. -/
instance exceptDecEq {ε α : Type} [DecidableEq ε] [DecidableEq α] :
    DecidableEq (Except ε α)
  | .error e, .error f =>
    if h : e = f then .isTrue (congrArg Except.error h)
    else .isFalse (fun hc => h (Except.error.inj hc))
  | .error _, .ok _ => .isFalse (fun hc => Except.noConfusion hc)
  | .ok _, .error _ => .isFalse (fun hc => Except.noConfusion hc)
  | .ok x, .ok y =>
    if h : x = y then .isTrue (congrArg Except.ok h)
    else .isFalse (fun hc => h (Except.ok.inj hc))

/-- Loop of the first revision's iguanaDecompress, src/main.go:77-93: while at
least 4 bytes remain, read a 3-byte length, panic if fewer bytes than declared
remain, otherwise slice off the window and decompress it into dst[:0]
(truncating dst each pass); finally return dst[:0]. -/
def iguanaDecompressGo (decomp : List Nat → Option (List Nat)) :
    Nat → List Nat → List Nat → Except DecompError (List Nat)
  | 0, dst, _ => .ok (dst.take 0)
  | fuel + 1, dst, src =>
    if 4 ≤ src.length then
      let winsize := headerVal src
      let rest := src.drop 3
      if rest.length < winsize then .error DecompError.invalidFrame
      else
        match decomp (rest.take winsize) with
        | none => .error DecompError.codec
        | some d => iguanaDecompressGo decomp fuel d (rest.drop winsize)
    else .ok (dst.take 0)

/-- iguanaDecompress, first revision, src/main.go:77-93. -/
def iguanaDecompress (decomp : List Nat → Option (List Nat))
    (dst src : List Nat) : Except DecompError (List Nat) :=
  iguanaDecompressGo decomp src.length dst src

/-- Loop of the second revision's iguanaDecompress, src/main.go:411-428: the
same framing traversal, but it keeps no destination value and panics on any
codec error. -/
def iguanaDecompress2Go (decomp : List Nat → Option (List Nat)) :
    Nat → List Nat → Except DecompError Unit
  | 0, _ => .ok ()
  | fuel + 1, src =>
    if 4 ≤ src.length then
      let winsize := headerVal src
      let rest := src.drop 3
      if rest.length < winsize then .error DecompError.invalidFrame
      else
        match decomp (rest.take winsize) with
        | none => .error DecompError.codec
        | some _ => iguanaDecompress2Go decomp fuel (rest.drop winsize)
    else .ok ()

/-- iguanaDecompress, second revision, src/main.go:411-428. -/
def iguanaDecompress2 (decomp : List Nat → Option (List Nat))
    (src : List Nat) : Except DecompError Unit :=
  iguanaDecompress2Go decomp src.length src

/-- The framing traversal of the decode loop in isolation: the bytes still
unconsumed when the loop exits (fewer than 4 remain), or none at the
invalid-frame panic. -/
def frameLeftoverGo : Nat → List Nat → Option (List Nat)
  | 0, src => some src
  | fuel + 1, src =>
    if 4 ≤ src.length then
      let winsize := headerVal src
      let rest := src.drop 3
      if rest.length < winsize then none
      else frameLeftoverGo fuel (rest.drop winsize)
    else some src

/-- Leftover bytes after sequentially reading length-prefixed frames. -/
def frameLeftover (src : List Nat) : Option (List Nat) :=
  frameLeftoverGo src.length src

/-- Nanoseconds per Go time.Second. -/
def nsPerSecond : Nat := 1000000000

/-- Wall-clock nanoseconds elapsed since loop start after n iterations,
with dur i the duration of the i-th decompress call; every time.Now()
reading of a measurement loop is derived from these. -/
def elapsedAfter (dur : Nat → Nat) : Nat → Nat
  | 0 => 0
  | n + 1 => elapsedAfter dur n + dur n

/-- Exit condition of the second revision's measurement loop,
src/main.go:481: the head re-enters while iters == 0 or time.Now() is
before the deadline, so the loop stops after n iterations exactly when
n ≥ 1 and the elapsed time has reached the deadline. -/
def benchExit (dur : Nat → Nat) (deadline n : Nat) : Prop :=
  1 ≤ n ∧ deadline ≤ elapsedAfter dur n

instance benchExitDec (dur : Nat → Nat) (deadline n : Nat) :
    Decidable (benchExit dur deadline n) :=
  inferInstanceAs (Decidable (1 ≤ n ∧ deadline ≤ elapsedAfter dur n))

/-- Iterations completed by the second revision's loop: the first point at
which its exit condition holds. -/
def benchIters (dur : Nat → Nat) (deadline : Nat)
    (h : ∃ n, benchExit dur deadline n) : Nat :=
  Nat.find h

/-- Exit condition of the first revision's benchMain loop, src/main.go:116:
the head re-enters while time.Now() is before the deadline. -/
def benchMainExit (dur : Nat → Nat) (deadline n : Nat) : Prop :=
  deadline ≤ elapsedAfter dur n

instance benchMainExitDec (dur : Nat → Nat) (deadline n : Nat) :
    Decidable (benchMainExit dur deadline n) :=
  inferInstanceAs (Decidable (deadline ≤ elapsedAfter dur n))

/-- Iterations completed by benchMain's loop. -/
def benchMainIters (dur : Nat → Nat) (deadline : Nat)
    (h : ∃ n, benchMainExit dur deadline n) : Nat :=
  Nat.find h

/-- The running minimum kept by benchMain, src/main.go:122-125: min starts
at 0 and is replaced whenever it is 0 or the new sample is smaller. -/
def benchMainMin (dur : Nat → Nat) : Nat → Nat
  | 0 => 0
  | n + 1 =>
    let m := benchMainMin dur n
    if m = 0 ∨ dur n < m then dur n else m

/-- The MB/s figure printed by benchMain, src/main.go:127-130:
(len(buf) / min) * (1e12 / float64(time.Second)), as exact rationals. -/
def benchMainMBps (bufLen minNs : Nat) : ℚ :=
  ((bufLen : ℚ) / (minNs : ℚ)) * (1000000000000 / 1000000000)

/-- Total bytes credited by the second revision's loop
(wrote += len(data) once per iteration, src/main.go:483). -/
def benchmarkWrote (iters dataLen : Nat) : Nat := iters * dataLen

/-- The GiB/s figure printed by the second revision's benchmark,
src/main.go:488: wrote / ((elapsed * 1024^3) / float64(time.Second)). -/
def benchmarkGiBps (wrote elapsedNs : Nat) : ℚ :=
  (wrote : ℚ) / (((elapsedNs : ℚ) * (1024 * 1024 * 1024)) / 1000000000)

/-- The ratio printed by the second revision's benchmark, src/main.go:487:
float64(len(compressed)) / float64(len(data)). -/
def benchRatioOf (compress : List Nat → List Nat) (data : List Nat) : ℚ :=
  (((compress data).length : ℚ)) / ((data.length : ℚ))

/-- The ratio column printed by the first revision's main, src/main.go:336:
float64(isize) / float64(osize), with isize the original corpus size and
osize the compressed size parsed from the backend's output. -/
def mainRatioColumn (isize osize : Nat) : ℚ :=
  (isize : ℚ) / (osize : ℚ)

/-- Duration sequence of the C3 counterexample: the first decompress call
takes 2 ns, every later one 4 ns. -/
def durEx (i : Nat) : Nat := if i = 0 then 2 else 4

/-- Constant 1 ns durations: each decompress call takes one nanosecond. -/
def durOne (_ : Nat) : Nat := 1

/-- One event of an external-backend measurement, as observed at the
subprocess boundary. -/
inductive ExtEvent where
  | launch (args : List String)
  | writeAll (data : List Nat)
  | closeStdin
  | waitExit
deriving DecidableEq

/-- decompressCmdline(args...), src/main.go:430-441, builds a closure whose
every call runs one fresh subprocess: exec.Command(args[0], args[1:]...)
with Stdin reading the compressed payload, so one call is the event
sequence launch, write the full payload to its standard input, reach
end-of-input (the reader closes), wait for exit. -/
def decompressCmdline (args : List String) (src : List Nat) : List ExtEvent :=
  [ExtEvent.launch args, ExtEvent.writeAll src, ExtEvent.closeStdin,
    ExtEvent.waitExit]

/-- The subprocess events of the second revision's measurement loop,
src/main.go:481-485, for an external backend: the loop body invokes
c.decompress(compressed) once per iteration. -/
def benchmarkExtEvents (args : List String) (compressed : List Nat)
    (iters : Nat) : List ExtEvent :=
  (List.range iters).flatMap (fun _ => decompressCmdline args compressed)

/-- Number of subprocess launches in a trace. -/
def launchCount : List ExtEvent → Nat
  | [] => 0
  | ExtEvent.launch _ :: t => launchCount t + 1
  | ExtEvent.writeAll _ :: t => launchCount t
  | ExtEvent.closeStdin :: t => launchCount t
  | ExtEvent.waitExit :: t => launchCount t

/-- Number of full payload copies written in a trace. -/
def writeCount : List ExtEvent → Nat
  | [] => 0
  | ExtEvent.launch _ :: t => writeCount t
  | ExtEvent.writeAll _ :: t => writeCount t + 1
  | ExtEvent.closeStdin :: t => writeCount t
  | ExtEvent.waitExit :: t => writeCount t

/-- One backend entry as the driver's skip logic sees it: its name, the
availability probe's boolean, and the CSV line its measurement would print
(the measurement itself is opaque here; the availability gate is
src/main.go:471-475 in benchmark and src/main.go:329-337 in main). -/
structure BenchBackend where
  name : String
  avail : Bool
  row : String

/-- The lines one backend contributes: nothing when its probe is false
(benchmark logs and returns; main logs and continues), its CSV row
otherwise. -/
def benchmarkLines (c : BenchBackend) : List String :=
  if c.avail then [c.row] else []

/-- The driver's sequential loop over the backend table, collecting every
line printed after the header. -/
def runBackends : List BenchBackend → List String
  | [] => []
  | c :: rest => benchmarkLines c ++ runBackends rest

/-- One call of the closure produced by lookPath, src/main.go:133-138 and
458-463: the captured name is overwritten with the result of
exec.LookPath (the empty string when the lookup fails, the error being
discarded), and the call returns whether the new name is non-empty.
lp models exec.LookPath over a fixed filesystem and search path. -/
def lookPathCall (lp : String → Option String) (name : String) :
    String × Bool :=
  let resolved := (lp name).getD ""
  (resolved, resolved != "")

/-- The captured name after n calls of the closure. -/
def lookPathName (lp : String → Option String) (name : String) :
    Nat → String
  | 0 => name
  | n + 1 => (lookPathCall lp (lookPathName lp name n)).1

/-- The boolean answer of the (n+1)-st call of the closure. -/
def lookPathAnswer (lp : String → Option String) (name : String)
    (n : Nat) : Bool :=
  (lookPathCall lp (lookPathName lp name n)).2

/-- A concrete lookup environment: "zstd" resolves to /usr/bin/zstd, which
resolves to itself; everything else is absent. -/
def lpEx (s : String) : Option String :=
  if s = "zstd" then some "/usr/bin/zstd"
  else if s = "/usr/bin/zstd" then some "/usr/bin/zstd"
  else none

lemma headerVal_cons (a b c : Nat) (l : List Nat) :
    headerVal (a :: b :: c :: l) = a + b * 256 + c * 65536 := rfl

lemma frameHeader_append (w : Nat) (l : List Nat) :
    frameHeader w ++ l = w % 256 :: w / 256 % 256 :: w / 65536 % 256 :: l := rfl

lemma headerVal_frameHeader_append (w : Nat) (l : List Nat) (hw : w < 16777216) :
    headerVal (frameHeader w ++ l) = w := by
  rw [frameHeader_append, headerVal_cons]
  omega

lemma headerVal_frameHeader (w : Nat) (hw : w < 16777216) :
    headerVal (frameHeader w) = w := by
  have h := headerVal_frameHeader_append w [] hw
  simpa using h

lemma frameHeader_length (w : Nat) : (frameHeader w).length = 3 := rfl

lemma drop3_frameHeader_append (w : Nat) (l : List Nat) :
    (frameHeader w ++ l).drop 3 = l := rfl

lemma frameStream_nil : frameStream [] = [] := rfl

lemma frameStream_cons (cw : List Nat) (ws : List (List Nat)) :
    frameStream (cw :: ws) = frameHeader cw.length ++ cw ++ frameStream ws := by
  simp [frameStream]

lemma iguanaCompressGo_eq_frameStream (comp : ℚ → List Nat → List Nat) (t : ℚ) :
    ∀ (fuel : Nat) (src : List Nat),
      iguanaCompressGo comp t fuel src =
        frameStream ((windowsGo fuel src).map (comp t)) := by
  intro fuel
  induction fuel with
  | zero => intro src; simp [iguanaCompressGo, windowsGo, frameStream]
  | succ n ih =>
    intro src
    cases src with
    | nil => simp [iguanaCompressGo, windowsGo, frameStream]
    | cons b tl =>
      simp only [iguanaCompressGo, windowsGo, List.map_cons, frameStream_cons]
      rw [ih]

/-- The compress loop emits exactly one length-prefixed frame per window. -/
lemma iguanaCompress_eq_frameStream (comp : ℚ → List Nat → List Nat) (t : ℚ)
    (src : List Nat) :
    iguanaCompress comp t src = frameStream ((windows src).map (comp t)) := by
  rw [iguanaCompress, windows, iguanaCompressGo_eq_frameStream]

lemma windowsGo_mem : ∀ (fuel : Nat) (src : List Nat),
    ∀ w ∈ windowsGo fuel src, w ≠ [] ∧ w.length ≤ iguanaWindowSize := by
  intro fuel
  induction fuel with
  | zero => intro src w hw; simp [windowsGo] at hw
  | succ n ih =>
    intro src w hw
    cases src with
    | nil => simp [windowsGo] at hw
    | cons b tl =>
      simp only [windowsGo, List.mem_cons] at hw
      rcases hw with h | h
      · subst h
        constructor
        · simp [iguanaWindowSize]
        · simp
      · exact ih _ w h

/-- Every window is a non-empty chunk of at most iguanaWindowSize bytes. -/
lemma windows_mem (src : List Nat) :
    ∀ w ∈ windows src, w ≠ [] ∧ w.length ≤ iguanaWindowSize :=
  windowsGo_mem src.length src

/-- Running the first revision's decode loop over a well-formed frame stream
followed by at most 3 trailing bytes always succeeds and, as written in the
source, returns the emptied destination dst[:0]. -/
lemma decompressGo_frameStream (decomp : List Nat → Option (List Nat)) :
    ∀ (ws : List (List Nat)) (tl dst : List Nat) (fuel : Nat),
      (∀ cw ∈ ws, cw.length < 16777216 ∧ ∃ d, decomp cw = some d) →
      tl.length ≤ 3 →
      iguanaDecompressGo decomp fuel dst (frameStream ws ++ tl) =
        Except.ok [] := by
  intro ws
  induction ws with
  | nil =>
    intro tl dst fuel _ htl
    cases fuel with
    | zero => simp [iguanaDecompressGo]
    | succ n =>
      have h4 : ¬ 4 ≤ (frameStream [] ++ tl).length := by
        rw [frameStream_nil, List.nil_append]; omega
      simp only [iguanaDecompressGo]
      rw [if_neg h4]
      simp
  | cons c ws ih =>
    intro tl dst fuel hws htl
    obtain ⟨hclen, d, hd⟩ := hws c (List.mem_cons_self c ws)
    have hrest : ∀ cw ∈ ws, cw.length < 16777216 ∧ ∃ d, decomp cw = some d :=
      fun cw hcw => hws cw (List.mem_cons_of_mem c hcw)
    rw [frameStream_cons, List.append_assoc, List.append_assoc]
    cases fuel with
    | zero => simp [iguanaDecompressGo]
    | succ n =>
      by_cases h4 : 4 ≤ (frameHeader c.length ++ (c ++ (frameStream ws ++ tl))).length
      · simp only [iguanaDecompressGo]
        rw [if_pos h4, headerVal_frameHeader_append c.length _ hclen,
          drop3_frameHeader_append]
        have hnlt : ¬ (c ++ (frameStream ws ++ tl)).length < c.length := by
          rw [List.length_append]; omega
        rw [if_neg hnlt, List.take_left, List.drop_left, hd]
        exact ih tl d n hrest htl
      · simp only [iguanaDecompressGo]
        rw [if_neg h4]
        simp

/-- Both revisions' decode loops agree: the second is the first with the
destination value discarded. -/
lemma decompress2Go_eq_map (decomp : List Nat → Option (List Nat)) :
    ∀ (fuel : Nat) (dst src : List Nat),
      iguanaDecompress2Go decomp fuel src =
        (iguanaDecompressGo decomp fuel dst src).map (fun _ => ()) := by
  intro fuel
  induction fuel with
  | zero =>
    intro dst src
    simp [iguanaDecompressGo, iguanaDecompress2Go, Except.map]
  | succ n ih =>
    intro dst src
    simp only [iguanaDecompressGo, iguanaDecompress2Go]
    by_cases h4 : 4 ≤ src.length
    · rw [if_pos h4, if_pos h4]
      by_cases hlt : (src.drop 3).length < headerVal src
      · rw [if_pos hlt, if_pos hlt]
        simp [Except.map]
      · rw [if_neg hlt, if_neg hlt]
        cases hd : decomp ((src.drop 3).take (headerVal src)) with
        | none => simp [Except.map]
        | some d => exact ih d _
    · rw [if_neg h4, if_neg h4]
      simp [Except.map]

/-- Reading length-prefixed frames off a well-formed stream of non-empty
compressed windows consumes the stream exactly, with zero leftover bytes. -/
lemma frameLeftoverGo_frameStream :
    ∀ (ws : List (List Nat)) (fuel : Nat),
      (∀ cw ∈ ws, 1 ≤ cw.length ∧ cw.length < 16777216) →
      (frameStream ws).length ≤ fuel →
      frameLeftoverGo fuel (frameStream ws) = some [] := by
  intro ws
  induction ws with
  | nil =>
    intro fuel _ _
    cases fuel with
    | zero => rw [frameStream_nil]; rfl
    | succ n =>
      rw [frameStream_nil]
      simp only [frameLeftoverGo]
      rw [if_neg (by simp)]
  | cons c ws ih =>
    intro fuel hws hfuel
    obtain ⟨hc1, hclen⟩ := hws c (List.mem_cons_self c ws)
    have hlen : (frameStream (c :: ws)).length =
        3 + c.length + (frameStream ws).length := by
      rw [frameStream_cons]
      simp [frameHeader_length]
      omega
    rw [hlen] at hfuel
    obtain ⟨n, rfl⟩ : ∃ n, fuel = n + 1 := ⟨fuel - 1, by omega⟩
    rw [frameStream_cons, List.append_assoc]
    simp only [frameLeftoverGo]
    have h4 : 4 ≤ (frameHeader c.length ++ (c ++ frameStream ws)).length := by
      simp [frameHeader_length, List.length_append]
      omega
    rw [if_pos h4, headerVal_frameHeader_append c.length _ hclen,
      drop3_frameHeader_append]
    have hnlt : ¬ (c ++ frameStream ws).length < c.length := by
      rw [List.length_append]; omega
    rw [if_neg hnlt, List.drop_left]
    exact ih n (fun cw h => hws cw (List.mem_cons_of_mem c h)) (by omega)

/-- C1 (amended): for every threshold and payload, decoding the frame stream
produced by encoding succeeds — every frame is consumed and each window is
handed to the codec — but the first revision's decoder returns the emptied
destination dst[:0], i.e. the empty byte sequence, not x; the empty sequence
encodes to an empty byte stream and decodes back to empty.  comp and decomp
model the opaque iguana codec, assumed to round-trip each window with a
compressed size below the 3-byte limit. -/
theorem iguana_encode_then_decode_returns_empty
    (comp : ℚ → List Nat → List Nat) (decomp : List Nat → Option (List Nat))
    (t : ℚ) (x dst : List Nat)
    (hsz : ∀ w ∈ windows x, (comp t w).length < 16777216)
    (hrt : ∀ w ∈ windows x, decomp (comp t w) = some w) :
    iguanaDecompress decomp dst (iguanaCompress comp t x) = Except.ok [] ∧
    iguanaCompress comp t [] = [] ∧
    iguanaDecompress decomp dst [] = Except.ok [] := by
  refine ⟨?_, rfl, by simp [iguanaDecompress, iguanaDecompressGo]⟩
  rw [iguanaCompress_eq_frameStream]
  simp only [iguanaDecompress]
  have hws : ∀ cw ∈ (windows x).map (comp t),
      cw.length < 16777216 ∧ ∃ d, decomp cw = some d := by
    intro cw hcw
    obtain ⟨w, hw, rfl⟩ := List.mem_map.mp hcw
    exact ⟨hsz w hw, w, hrt w hw⟩
  have h := decompressGo_frameStream decomp ((windows x).map (comp t)) [] dst
    (frameStream ((windows x).map (comp t)) ++ []).length hws (by simp)
  rw [List.append_nil] at h
  exact h

/-- C1 counterexample: with an identity window codec (which round-trips and
respects the size bound), encoding the one-byte payload [5] at threshold 1
and decoding yields Except.ok [] — the empty sequence — not [5]. -/
theorem iguana_encode_then_decode_not_id :
    iguanaDecompress (fun w => some w) []
      (iguanaCompress (fun _ w => w) 1 [5]) ≠
      Except.ok [5] := by
  decide

/-- Witness for the amended C1 theorem at the identity codec on payload [5]. -/
theorem iguana_encode_then_decode_returns_empty_witness :
    (∀ w ∈ windows [5], ((fun (_ : ℚ) (w : List Nat) => w) 1 w).length < 16777216) ∧
    (∀ w ∈ windows [5],
      (fun (w : List Nat) => some w) ((fun (_ : ℚ) (w : List Nat) => w) 1 w) = some w) ∧
    (iguanaDecompress (fun w => some w) []
        (iguanaCompress (fun _ w => w) 1 [5]) = Except.ok [] ∧
      iguanaCompress (fun _ w => w) 1 [] = [] ∧
      iguanaDecompress (fun w => some w) [] [] = Except.ok []) :=
  ⟨by decide, by decide,
    iguana_encode_then_decode_returns_empty (fun _ w => w) (fun w => some w)
      1 [5] [] (by decide) (by decide)⟩

/-- C6: a frame whose declared 3-byte length exceeds the number of bytes
remaining after the header makes both revisions' decoders fail immediately
with the invalid-frame (framing corruption) error, returning no decoded
data and attempting no resynchronization. -/
theorem decode_incomplete_frame_fatal
    (decomp : List Nat → Option (List Nat)) (dst src : List Nat)
    (h4 : 4 ≤ src.length) (hbad : src.length - 3 < headerVal src) :
    iguanaDecompress decomp dst src = Except.error DecompError.invalidFrame ∧
    iguanaDecompress2 decomp src = Except.error DecompError.invalidFrame := by
  obtain ⟨n, hn⟩ : ∃ n, src.length = n + 1 := ⟨src.length - 1, by omega⟩
  have hlt : (src.drop 3).length < headerVal src := by
    rw [List.length_drop]; exact hbad
  constructor
  · simp only [iguanaDecompress]
    rw [hn]
    simp only [iguanaDecompressGo]
    rw [if_pos (hn ▸ h4), if_pos hlt]
  · simp only [iguanaDecompress2]
    rw [hn]
    simp only [iguanaDecompress2Go]
    rw [if_pos (hn ▸ h4), if_pos hlt]

/-- Witness for C6 at the concrete corrupt stream [5, 0, 0, 1]: the header
declares 5 bytes but only one byte remains. -/
theorem decode_incomplete_frame_fatal_witness :
    4 ≤ ([5, 0, 0, 1] : List Nat).length ∧
    ([5, 0, 0, 1] : List Nat).length - 3 < headerVal [5, 0, 0, 1] ∧
    (iguanaDecompress (fun w => some w) [] [5, 0, 0, 1] =
        Except.error DecompError.invalidFrame ∧
      iguanaDecompress2 (fun w => some w) [5, 0, 0, 1] =
        Except.error DecompError.invalidFrame) :=
  ⟨by decide, by decide,
    decode_incomplete_frame_fatal (fun w => some w) [] [5, 0, 0, 1]
      (by decide) (by decide)⟩

/-- C7: the byte stream produced by the encoder is an exact concatenation of
frames, one per window, each carrying a 3-byte little-endian length whose
value equals the number of compressed-window bytes immediately following it;
sequentially reading length-prefixed frames consumes the encoded stream
exactly, with zero leftover bytes.  The codec is assumed to produce, per
window, a non-empty compressed form below the 3-byte size limit. -/
theorem encode_frame_self_consistency
    (comp : ℚ → List Nat → List Nat) (t : ℚ) (x : List Nat)
    (hsz : ∀ w ∈ windows x,
      1 ≤ (comp t w).length ∧ (comp t w).length < 16777216) :
    iguanaCompress comp t x = frameStream ((windows x).map (comp t)) ∧
    (∀ w ∈ windows x,
      headerVal (frameHeader (comp t w).length) = (comp t w).length) ∧
    frameLeftover (iguanaCompress comp t x) = some [] := by
  refine ⟨iguanaCompress_eq_frameStream comp t x,
    fun w hw => headerVal_frameHeader _ (hsz w hw).2, ?_⟩
  rw [iguanaCompress_eq_frameStream]
  simp only [frameLeftover]
  refine frameLeftoverGo_frameStream ((windows x).map (comp t)) _ ?_ le_rfl
  intro cw hcw
  obtain ⟨w, hw, rfl⟩ := List.mem_map.mp hcw
  exact hsz w hw

/-- Witness for C7 at the identity codec on payload [5]. -/
theorem encode_frame_self_consistency_witness :
    (∀ w ∈ windows [5],
      1 ≤ ((fun (_ : ℚ) (w : List Nat) => w) 1 w).length ∧
        ((fun (_ : ℚ) (w : List Nat) => w) 1 w).length < 16777216) ∧
    (iguanaCompress (fun _ w => w) 1 [5] =
        frameStream ((windows [5]).map ((fun (_ : ℚ) (w : List Nat) => w) 1)) ∧
      (∀ w ∈ windows [5],
        headerVal (frameHeader ((fun (_ : ℚ) (w : List Nat) => w) 1 w).length) =
          ((fun (_ : ℚ) (w : List Nat) => w) 1 w).length) ∧
      frameLeftover (iguanaCompress (fun _ w => w) 1 [5]) = some []) :=
  ⟨by decide,
    encode_frame_self_consistency (fun _ w => w) 1 [5] (by decide)⟩

/-- C10: when, after zero or more complete frames, between 1 and 3 bytes
remain (a truncation falling inside a frame header), both revisions' decoders
terminate successfully and silently ignore the trailing bytes; such trailing
bytes are never reported as a framing error. -/
theorem decode_ignores_short_trailing_bytes
    (decomp : List Nat → Option (List Nat)) (dst : List Nat)
    (ws : List (List Nat)) (tl : List Nat)
    (hws : ∀ cw ∈ ws, cw.length < 16777216 ∧ ∃ d, decomp cw = some d)
    (ht1 : 1 ≤ tl.length) (ht3 : tl.length ≤ 3) :
    iguanaDecompress decomp dst (frameStream ws ++ tl) = Except.ok [] ∧
    iguanaDecompress2 decomp (frameStream ws ++ tl) = Except.ok () := by
  constructor
  · simp only [iguanaDecompress]
    exact decompressGo_frameStream decomp ws tl dst _ hws ht3
  · simp only [iguanaDecompress2]
    rw [decompress2Go_eq_map decomp _ dst,
      decompressGo_frameStream decomp ws tl dst _ hws ht3]
    rfl

/-- Witness for C10: one complete frame carrying window [7], followed by the
single trailing byte 9. -/
theorem decode_ignores_short_trailing_bytes_witness :
    (∀ cw ∈ [[7]], (cw : List Nat).length < 16777216 ∧
      ∃ d, (fun (w : List Nat) => some w) cw = some d) ∧
    1 ≤ ([9] : List Nat).length ∧ ([9] : List Nat).length ≤ 3 ∧
    (iguanaDecompress (fun w => some w) [] (frameStream [[7]] ++ [9]) =
        Except.ok [] ∧
      iguanaDecompress2 (fun w => some w) (frameStream [[7]] ++ [9]) =
        Except.ok ()) :=
  ⟨fun cw hcw => by
      simp only [List.mem_singleton] at hcw
      subst hcw
      exact ⟨by norm_num, ⟨[7], rfl⟩⟩,
    by decide, by decide,
    decode_ignores_short_trailing_bytes (fun w => some w) [] [[7]] [9]
      (fun cw hcw => by
        simp only [List.mem_singleton] at hcw
        subst hcw
        exact ⟨by norm_num, ⟨[7], rfl⟩⟩)
      (by decide) (by decide)⟩

/-- C2 counterexample: with original size 4 and compressed size 2, the first
revision's main prints 4/2 = 2 in its compression-ratio column, not
compressedSize/originalSize = 2/4. -/
theorem main_ratio_column_not_compressed_over_original :
    mainRatioColumn 4 2 ≠ (2 : ℚ) / 4 := by
  norm_num [mainRatioColumn]

/-- C2 (amended): the second revision's in-process benchmark reports
compressedSize/originalSize, while the first revision's main prints the
reciprocal quotient, originalSize/compressedSize, in its ratio column. -/
theorem reported_ratio_formulas
    (compress : List Nat → List Nat) (data : List Nat) (isize osize : Nat)
    (hdata : data.length ≠ 0) (hosize : osize ≠ 0) :
    benchRatioOf compress data * (data.length : ℚ) =
      ((compress data).length : ℚ) ∧
    mainRatioColumn isize osize * (osize : ℚ) = (isize : ℚ) := by
  constructor
  · rw [benchRatioOf]
    exact div_mul_cancel₀ _ (Nat.cast_ne_zero.mpr hdata)
  · rw [mainRatioColumn]
    exact div_mul_cancel₀ _ (Nat.cast_ne_zero.mpr hosize)

/-- Witness for the amended C2 theorem: a 4-byte corpus compressed to
2 bytes. -/
theorem reported_ratio_formulas_witness :
    ([1, 2, 3, 4] : List Nat).length ≠ 0 ∧ (2 : Nat) ≠ 0 ∧
    (benchRatioOf (fun _ => [0, 0]) [1, 2, 3, 4] *
        (([1, 2, 3, 4] : List Nat).length : ℚ) =
      (((fun (_ : List Nat) => ([0, 0] : List Nat)) [1, 2, 3, 4]).length : ℚ) ∧
    mainRatioColumn 4 2 * (2 : ℚ) = (4 : ℚ)) :=
  ⟨by decide, by decide,
    reported_ratio_formulas (fun _ => [0, 0]) [1, 2, 3, 4] 4 2
      (by decide) (by decide)⟩

/-- With a 3 ns deadline the benchMain loop over durEx terminates. -/
theorem durEx_exit : ∃ n, benchMainExit durEx 3 n := ⟨2, by decide⟩

/-- C3 counterexample: over durEx with a 3 ns deadline, benchMain completes
2 iterations in 6 ns total, but for a 6-byte corpus it prints
bufLen/min · 1000 = 3000 MB/s, while (iterations × corpus size)/elapsed
converted to MB/s is 2000. -/
theorem benchMain_mbps_not_iters_times_size_over_elapsed :
    benchMainMBps 6 (benchMainMin durEx (benchMainIters durEx 3 durEx_exit)) ≠
      ((benchMainIters durEx 3 durEx_exit * 6 : ℚ) /
          ((elapsedAfter durEx (benchMainIters durEx 3 durEx_exit) : ℚ) /
            (nsPerSecond : ℚ))) /
        1000000 := by
  have hn : benchMainIters durEx 3 durEx_exit = 2 := by
    rw [benchMainIters, Nat.find_eq_iff]
    exact ⟨by decide, by decide⟩
  rw [hn]
  have hm : benchMainMin durEx 2 = 2 := by decide
  have he : elapsedAfter durEx 2 = 6 := by decide
  rw [hm, he]
  norm_num [benchMainMBps, nsPerSecond]

/-- C3 (amended): in the second revision's in-process benchmark, the
reported GiB/s figure equals (completed iterations × original corpus size)
divided by the elapsed wall-clock time from loop start to loop exit, in
bytes per second, converted to GiB/s.  (The first revision's benchMain mode
instead prints corpus size over the minimum single-iteration duration; see
the counterexample.) -/
theorem benchmark_throughput_formula (dur : Nat → Nat)
    (deadline dataLen : Nat) (h : ∃ n, benchExit dur deadline n) :
    benchmarkGiBps (benchmarkWrote (benchIters dur deadline h) dataLen)
        (elapsedAfter dur (benchIters dur deadline h)) =
      ((benchIters dur deadline h * dataLen : ℚ) /
          ((elapsedAfter dur (benchIters dur deadline h) : ℚ) /
            (nsPerSecond : ℚ))) /
        (1024 * 1024 * 1024) := by
  rw [benchmarkGiBps, benchmarkWrote, div_div, div_mul_eq_mul_div]
  simp only [nsPerSecond]
  push_cast
  ring_nf

/-- With a 2 ns deadline the second revision's loop over durOne
terminates. -/
theorem durOne_exit : ∃ n, benchExit durOne 2 n := ⟨2, by decide⟩

/-- Witness for the amended C3 theorem at durOne, deadline 2 ns, corpus
size 7. -/
theorem benchmark_throughput_formula_witness :
    (∃ n, benchExit durOne 2 n) ∧
    benchmarkGiBps (benchmarkWrote (benchIters durOne 2 durOne_exit) 7)
        (elapsedAfter durOne (benchIters durOne 2 durOne_exit)) =
      ((benchIters durOne 2 durOne_exit * 7 : ℚ) /
          ((elapsedAfter durOne (benchIters durOne 2 durOne_exit) : ℚ) /
            (nsPerSecond : ℚ))) /
        (1024 * 1024 * 1024) :=
  ⟨durOne_exit, benchmark_throughput_formula durOne 2 7 durOne_exit⟩

/-- C4: if the very first decompress call takes at least the whole (positive)
measurement window, both revisions' deadline loops still execute it and then
stop: they terminate (the exit condition is satisfiable, so the loop is not
unbounded), report exactly 1 iteration — never zero — and the elapsed time
and recorded minimum both equal that single call's duration, from which the
printed throughput figures are computed. -/
theorem deadline_loop_minimum_iteration (dur : Nat → Nat) (deadline : Nat)
    (hpos : 0 < deadline) (hbig : deadline ≤ dur 0) :
    ∃ (h2 : ∃ n, benchExit dur deadline n)
      (h1 : ∃ n, benchMainExit dur deadline n),
      benchIters dur deadline h2 = 1 ∧
      benchMainIters dur deadline h1 = 1 ∧
      elapsedAfter dur 1 = dur 0 ∧
      benchMainMin dur 1 = dur 0 := by
  have he : elapsedAfter dur 1 = dur 0 := by simp [elapsedAfter]
  have hx2 : benchExit dur deadline 1 := ⟨le_rfl, by rwa [he]⟩
  have hx1 : benchMainExit dur deadline 1 := by
    rw [benchMainExit, he]; exact hbig
  refine ⟨⟨1, hx2⟩, ⟨1, hx1⟩, ?_, ?_, he, ?_⟩
  · rw [benchIters, Nat.find_eq_iff]
    refine ⟨hx2, ?_⟩
    intro k hk
    intro hc
    exact absurd hc.1 (by omega)
  · rw [benchMainIters, Nat.find_eq_iff]
    refine ⟨hx1, ?_⟩
    intro k hk
    interval_cases k
    rw [benchMainExit]
    simp [elapsedAfter]
    omega
  · simp [benchMainMin]

/-- Witness for C4: every call takes 5 ns against a 3 ns window. -/
theorem deadline_loop_minimum_iteration_witness :
    0 < 3 ∧ 3 ≤ (fun (_ : Nat) => 5) 0 ∧
    (∃ (h2 : ∃ n, benchExit (fun _ => 5) 3 n)
      (h1 : ∃ n, benchMainExit (fun _ => 5) 3 n),
      benchIters (fun _ => 5) 3 h2 = 1 ∧
      benchMainIters (fun _ => 5) 3 h1 = 1 ∧
      elapsedAfter (fun _ => 5) 1 = (fun (_ : Nat) => 5) 0 ∧
      benchMainMin (fun _ => 5) 1 = (fun (_ : Nat) => 5) 0) :=
  ⟨by decide, by decide,
    deadline_loop_minimum_iteration (fun _ => 5) 3 (by decide) (by decide)⟩

lemma launchCount_append (l1 l2 : List ExtEvent) :
    launchCount (l1 ++ l2) = launchCount l1 + launchCount l2 := by
  induction l1 with
  | nil => simp [launchCount]
  | cons e t ih =>
    cases e <;> simp [launchCount, ih] <;> omega

lemma writeCount_append (l1 l2 : List ExtEvent) :
    writeCount (l1 ++ l2) = writeCount l1 + writeCount l2 := by
  induction l1 with
  | nil => simp [writeCount]
  | cons e t ih =>
    cases e <;> simp [writeCount, ih] <;> omega

lemma launchCount_benchmarkExtEvents (args : List String)
    (compressed : List Nat) : ∀ iters : Nat,
    launchCount (benchmarkExtEvents args compressed iters) = iters := by
  intro iters
  induction iters with
  | zero => rfl
  | succ n ih =>
    rw [benchmarkExtEvents, List.range_succ, List.flatMap_append,
      launchCount_append]
    rw [benchmarkExtEvents] at ih
    rw [ih]
    rfl

lemma writeCount_benchmarkExtEvents (args : List String)
    (compressed : List Nat) : ∀ iters : Nat,
    writeCount (benchmarkExtEvents args compressed iters) = iters := by
  intro iters
  induction iters with
  | zero => rfl
  | succ n ih =>
    rw [benchmarkExtEvents, List.range_succ, List.flatMap_append,
      writeCount_append]
    rw [benchmarkExtEvents] at ih
    rw [ih]
    rfl

/-- With 1 ns iterations and a 2 ns deadline the second revision's loop runs
exactly twice. -/
theorem durOne_two_iters : benchIters durOne 2 durOne_exit = 2 := by
  rw [benchIters, Nat.find_eq_iff]
  exact ⟨by decide, by decide⟩

/-- C5 counterexample: in the external-backend measurement with 1 ns
iterations against a 2 ns deadline, the loop completes 2 iterations and the
subprocess trace holds 2 launches — the decompressor is not launched exactly
once per measurement. -/
theorem external_backend_not_single_launch :
    launchCount (benchmarkExtEvents ["zstd", "--single-thread", "-d", "-c"]
        [0] (benchIters durOne 2 durOne_exit)) ≠ 1 := by
  rw [durOne_two_iters]
  decide

/-- C5 (amended): in an external-backend measurement, every iteration of the
deadline loop launches a fresh decompressor process and writes exactly one
full copy of the compressed payload into that process's standard input,
which is then closed; the numbers of process launches and of full payload
copies written both equal the loop's iteration count, from which throughput
is derived. -/
theorem external_backend_process_per_iteration (args : List String)
    (compressed : List Nat) (dur : Nat → Nat) (deadline : Nat)
    (h : ∃ n, benchExit dur deadline n) :
    launchCount (benchmarkExtEvents args compressed
        (benchIters dur deadline h)) = benchIters dur deadline h ∧
    writeCount (benchmarkExtEvents args compressed
        (benchIters dur deadline h)) = benchIters dur deadline h :=
  ⟨launchCount_benchmarkExtEvents args compressed _,
    writeCount_benchmarkExtEvents args compressed _⟩

/-- Witness for the amended C5 theorem at durOne with a 2 ns deadline. -/
theorem external_backend_process_per_iteration_witness :
    (∃ n, benchExit durOne 2 n) ∧
    (launchCount (benchmarkExtEvents ["lz4", "-d", "-c"] [0]
        (benchIters durOne 2 durOne_exit)) = benchIters durOne 2 durOne_exit ∧
      writeCount (benchmarkExtEvents ["lz4", "-d", "-c"] [0]
        (benchIters durOne 2 durOne_exit)) = benchIters durOne 2 durOne_exit) :=
  ⟨durOne_exit,
    external_backend_process_per_iteration ["lz4", "-d", "-c"] [0] durOne 2
      durOne_exit⟩

/-- C8: a backend whose availability probe returns false contributes no CSV
line, while the run continues and completes for every other backend: the
whole table's output equals the output of the backends before it followed by
the output of the backends after it.  Unavailability never aborts the
run. -/
theorem unavailable_backend_skipped (pre post : List BenchBackend)
    (c : BenchBackend) (hc : c.avail = false) :
    runBackends (pre ++ c :: post) = runBackends pre ++ runBackends post := by
  induction pre with
  | nil => simp [runBackends, benchmarkLines, hc]
  | cons b pre ih => simp [runBackends, ih]

/-- Witness for C8: a three-backend table whose middle backend is
unavailable still yields the first and third backends' rows. -/
theorem unavailable_backend_skipped_witness :
    (⟨"zstd-9", false, "zstd-9, 0.26, 1.1"⟩ : BenchBackend).avail = false ∧
    runBackends
        [⟨"iguana", true, "iguana, 0.30, 4.0"⟩,
          ⟨"zstd-9", false, "zstd-9, 0.26, 1.1"⟩,
          ⟨"lz4-1", true, "lz4-1, 0.48, 3.2"⟩] =
      runBackends [⟨"iguana", true, "iguana, 0.30, 4.0"⟩] ++
        runBackends [⟨"lz4-1", true, "lz4-1, 0.48, 3.2"⟩] :=
  ⟨rfl,
    unavailable_backend_skipped [⟨"iguana", true, "iguana, 0.30, 4.0"⟩]
      [⟨"lz4-1", true, "lz4-1, 0.48, 3.2"⟩]
      ⟨"zstd-9", false, "zstd-9, 0.26, 1.1"⟩ rfl⟩

/-- C9: provided the environment is stable — a path once returned by the
lookup resolves to itself again (exec.LookPath of an already-resolved path
re-checks that same file), and the empty string never resolves — every
later call of the avail closure returns the same boolean as the first call,
whether the first lookup succeeded or failed, even though each call
overwrites the captured name; and a merely-absent tool yields false, never
an abort. -/
theorem lookPath_avail_stable (lp : String → Option String) (name : String)
    (hfix : ∀ s p, lp s = some p → lp p = some p)
    (hempty : lp "" = none) :
    (∀ n, lookPathAnswer lp name n = lookPathAnswer lp name 0) ∧
    (lp name = none → lookPathAnswer lp name 0 = false) := by
  have hstep : lookPathCall lp ((lp name).getD "") =
      ((lp name).getD "", (lp name).getD "" != "") := by
    cases hl : lp name with
    | none => simp [lookPathCall, hempty]
    | some p => simp [lookPathCall, hfix name p hl]
  have hname : ∀ n, lookPathName lp name (n + 1) = (lp name).getD "" := by
    intro n
    induction n with
    | zero => simp [lookPathName, lookPathCall]
    | succ m ih =>
      have : lookPathName lp name (m + 1 + 1) =
          (lookPathCall lp (lookPathName lp name (m + 1))).1 := rfl
      rw [this, ih, hstep]
  constructor
  · intro n
    cases n with
    | zero => rfl
    | succ m =>
      have h1 : lookPathAnswer lp name (m + 1) =
          (lookPathCall lp ((lp name).getD "")).2 := by
        rw [lookPathAnswer, hname m]
      rw [h1, hstep]
      rfl
  · intro hnone
    rw [lookPathAnswer]
    simp [lookPathName, lookPathCall, hnone]

lemma lpEx_fix : ∀ s p, lpEx s = some p → lpEx p = some p := by
  intro s p h
  rw [lpEx] at h
  split_ifs at h with h1 h2
  · rw [Option.some.injEq] at h
    rw [← h]
    decide
  · rw [Option.some.injEq] at h
    rw [← h]
    decide

lemma lpEx_empty : lpEx "" = none := by decide

/-- Witness for C9 at lpEx on an absent tool name. -/
theorem lookPath_avail_stable_witness :
    (∀ s p, lpEx s = some p → lpEx p = some p) ∧ lpEx "" = none ∧
    ((∀ n, lookPathAnswer lpEx "brotli" n = lookPathAnswer lpEx "brotli" 0) ∧
      (lpEx "brotli" = none → lookPathAnswer lpEx "brotli" 0 = false)) :=
  ⟨lpEx_fix, lpEx_empty, lookPath_avail_stable lpEx "brotli" lpEx_fix lpEx_empty⟩

example : iguanaCompress (fun _ w => w) 1 [5] = [1, 0, 0, 5] := by decide
example : iguanaCompress (fun _ w => w) 1 [] = [] := by decide
example : iguanaDecompress (fun w => some w) [] [1, 0, 0, 5] =
    Except.ok [] := by decide
example : iguanaDecompress (fun w => some w) [] [5, 0, 0, 1] =
    Except.error DecompError.invalidFrame := by decide
example : frameLeftover [1, 0, 0, 5] = some [] := by decide
example : windows [5] = [[5]] := by decide
